import Mathlib

/-!
Shallow embedding of the Nyxus feature-computation exemplars:

* `src/nyx/features/geo_len_thickness.cpp` — `GeodeticLengthThicknessFeature`
  (`calculate`, `osized_calculate`);
* `src/nyx/ngtdm.cpp` — `NGTDM_features` (`initialize` and the five derived
  scalars `calc_Coarseness`, `calc_Contrast`, `calc_Busyness`,
  `calc_Complexity`, `calc_Strength`).

Modelling conventions:
* C++ `double` values are embedded as exact rationals `ℚ` (every finite double
  is a rational; no rounding is modelled, as no claim hinges on rounding), and
  results of `sqrt` live in `ℝ` with `Real.sqrt`.
* `size_t` is modelled as `ℕ`, with the one product that can overflow reduced
  `% 2 ^ 64` (64-bit `size_t`).
* `PixIntens` is the pixel-intensity type.  Its typedef is not among the given
  sources; it is modelled from the spec ("pixel access ... returning an
  intensity", "distinct non-zero intensities") as an unsigned integer `ℕ`:
  the sources declare `PixIntens` set/sort/equality-compare operations and
  keep it distinct from `double` in the pair `(PixIntens, double)`, so the
  accumulator `neigsI` of `NGTDM_features::initialize` is an unsigned integer
  and `neigsI /= nd` is truncating integer division.
-/

/-- A dense ROI pixel matrix.  Models `ImageMatrix` together with the
`pixData` view returned by `ReadablePixels()`: `height`/`width` are the
matrix dimensions (`im.height`, `im.width`, identical to `D.height()`,
`D.width()`), and `pix row col` is the intensity `D(row, col)`. -/
structure ImageMatrix where
  height : ℕ
  width : ℕ
  pix : ℕ → ℕ → ℕ

/-- Modelled from the spec: `pixData::safe(row, col)` is not among the given
sources; per the spec it is "a bounds predicate `safe(row, col)` used to
avoid out-of-range neighbor reads", i.e. it holds exactly when `(row, col)`
is inside the matrix. -/
def ImageMatrix.safe (im : ImageMatrix) (row col : ℤ) : Bool :=
  decide (0 ≤ row ∧ row < (im.height : ℤ) ∧ 0 ≤ col ∧ col < (im.width : ℤ))

/-- Pixel read `D(row, col)` at possibly-signed coordinates; in the source it
is only ever evaluated under a `safe` guard, where both coordinates are
non-negative. -/
def ImageMatrix.pixAt (im : ImageMatrix) (row col : ℤ) : ℕ :=
  im.pix row.toNat col.toNat

/-- Sum accumulated into `neigsI` by the eight `if (D.safe(...))` blocks of
`NGTDM_features::initialize` (order: N, NE, E, SE, S, SW, W, NW). -/
def neighborSum (im : ImageMatrix) (row col : ℤ) : ℕ :=
  (if im.safe (row - 1) col then im.pixAt (row - 1) col else 0) +
  (if im.safe (row - 1) (col + 1) then im.pixAt (row - 1) (col + 1) else 0) +
  (if im.safe row (col + 1) then im.pixAt row (col + 1) else 0) +
  (if im.safe (row + 1) (col + 1) then im.pixAt (row + 1) (col + 1) else 0) +
  (if im.safe (row + 1) col then im.pixAt (row + 1) col else 0) +
  (if im.safe (row + 1) (col - 1) then im.pixAt (row + 1) (col - 1) else 0) +
  (if im.safe row (col - 1) then im.pixAt row (col - 1) else 0) +
  (if im.safe (row - 1) (col - 1) then im.pixAt (row - 1) (col - 1) else 0)

/-- The counter `nd` ("number of dependencies") incremented by the same eight
`if (D.safe(...))` blocks. -/
def neighborCount (im : ImageMatrix) (row col : ℤ) : ℕ :=
  (if im.safe (row - 1) col then 1 else 0) +
  (if im.safe (row - 1) (col + 1) then 1 else 0) +
  (if im.safe row (col + 1) then 1 else 0) +
  (if im.safe (row + 1) (col + 1) then 1 else 0) +
  (if im.safe (row + 1) col then 1 else 0) +
  (if im.safe (row + 1) (col - 1) then 1 else 0) +
  (if im.safe row (col - 1) then 1 else 0) +
  (if im.safe (row - 1) (col - 1) then 1 else 0)

/-- The zone list `Z` built by the row-major double loop of
`NGTDM_features::initialize`: for every non-blank pixel (`pi != 0`), the pair
`(pi, neigsI / nd)` — the neighborhood sum divided by the neighbor count in
truncating unsigned-integer division, the quotient then stored in the
`double` slot of `AveNeighborhoodInte`.  (`neigsI /= nd` divides the
`PixIntens` accumulator by the `int` count; for `nd = 0` — impossible on a
matrix with at least two cells, see the `nd`-positivity theorem — C++ integer
division is undefined and the model returns `0`.) -/
def zones (im : ImageMatrix) : List (ℕ × ℚ) :=
  (List.range im.height).flatMap fun row =>
    (List.range im.width).filterMap fun col =>
      let pi := im.pix row col
      if pi = 0 then none
      else some (pi, ((neighborSum im row col / neighborCount im row col : ℕ) : ℚ))

/-- The sorted vector `I` of unique intensities: the source collects the
non-zero intensities into `std::unordered_set U`, copies them to a vector and
`std::sort`s it — i.e. the distinct non-zero intensities in ascending order. -/
def uniqueIntensities (im : ImageMatrix) : List ℕ :=
  (((zones im).map Prod.fst).dedup).insertionSort (· ≤ ·)

/-- Working state of `NGTDM_features` (the class members read by the five
`calc_*` methods).  The member vectors `P`, `S`, `N` are embedded as functions
from the index; default values model the members before `initialize` runs
(the class declaration is not among the given sources; the defaults are
immaterial because every reader checks `bad_roi_data` first). -/
structure NGTDM_features where
  bad_roi_data : Bool := false
  Ng : ℕ := 0
  Ngp : ℕ := 0
  Nvp : ℕ := 0
  P : ℕ → ℚ := fun _ => 0
  S : ℕ → ℚ := fun _ => 0
  N : ℕ → ℕ := fun _ => 0

/-- `NGTDM_features::initialize(minI, maxI, im)`.  If `minI == maxI` it sets
`bad_roi_data` and returns; otherwise it builds `Z`, the sorted unique
intensity list `I`, `Ng = Ngp = |I|`, and fills `N` (per-intensity pixel
count), `S` (per-intensity sum of `|pi - aveNeigI|`), `Nvp` (count of zones
with strictly positive neighborhood average) and
`P[i] = Ng / (im.height * im.width)` for every `i < Ng`. -/
def NGTDM_features.setup (minI maxI : ℕ) (im : ImageMatrix) : NGTDM_features :=
  if minI = maxI then { bad_roi_data := true }
  else
    let Z := zones im
    let I := uniqueIntensities im
    let Ng := I.length
    { bad_roi_data := false
      Ng := Ng
      Ngp := Ng
      Nvp := (Z.filter fun z => 0 < z.2).length
      N := fun i => (Z.filter fun z => I.indexOf z.1 = i).length
      S := fun i => ((Z.filter fun z => I.indexOf z.1 = i).map
        fun z => |(z.1 : ℚ) - z.2|).sum
      P := fun i => if i < Ng then (Ng : ℚ) / ((im.height : ℚ) * (im.width : ℚ)) else 0 }

/-- `const double BAD_ROI_FVAL = 0.0;` -/
def BAD_ROI_FVAL : ℚ := 0

/-- `NGTDM_features::calc_Coarseness`. -/
def NGTDM_features.calc_Coarseness (f : NGTDM_features) : ℚ :=
  if f.bad_roi_data then BAD_ROI_FVAL
  else 1 / (Finset.range f.Ng).sum fun i => f.P i * f.S i

/-- `NGTDM_features::calc_Contrast`. -/
def NGTDM_features.calc_Contrast (f : NGTDM_features) : ℚ :=
  if f.bad_roi_data then BAD_ROI_FVAL
  else
    let sum1 := (Finset.range f.Ng).sum fun i => (Finset.range f.Ng).sum fun j =>
      f.P i * f.P j * (((i : ℚ) + 1) - ((j : ℚ) + 1)) * (((i : ℚ) + 1) - ((j : ℚ) + 1))
    let Ngp_p2 : ℕ := if 1 < f.Ngp then f.Ngp * (f.Ngp - 1) else f.Ngp
    let term1 := sum1 / (Ngp_p2 : ℚ)
    let term2 := ((Finset.range f.Ng).sum fun i => f.S i) / (f.Ngp : ℚ)
    term1 * term2

/-- `NGTDM_features::calc_Busyness`. -/
def NGTDM_features.calc_Busyness (f : NGTDM_features) : ℚ :=
  if f.bad_roi_data then BAD_ROI_FVAL
  else if f.Ngp = 1 then 0
  else
    let sum1 := (Finset.range f.Ng).sum fun i => f.P i * f.S i
    let sum2 := (Finset.range f.Ng).sum fun i => (Finset.range f.Ng).sum fun j =>
      |f.P i * (i : ℚ) - f.P j * (j : ℚ)|
    sum1 / sum2

/-- `NGTDM_features::calc_Complexity`. -/
def NGTDM_features.calc_Complexity (f : NGTDM_features) : ℚ :=
  if f.bad_roi_data then BAD_ROI_FVAL
  else
    ((Finset.range f.Ng).sum fun i => (Finset.range f.Ng).sum fun j =>
      |((i : ℚ) + 1) - ((j : ℚ) + 1)| * (f.P i * f.S i + f.P j * f.S j) / (f.P i + f.P j))
    / (f.Nvp : ℚ)

/-- `NGTDM_features::calc_Strength`. -/
def NGTDM_features.calc_Strength (f : NGTDM_features) : ℚ :=
  if f.bad_roi_data then BAD_ROI_FVAL
  else
    ((Finset.range f.Ng).sum fun i => (Finset.range f.Ng).sum fun j =>
      (f.P i + f.P j) * (((i : ℚ) + 1) - ((j : ℚ) + 1)) * (((i : ℚ) + 1) - ((j : ℚ) + 1)))
    / ((Finset.range f.Ng).sum fun i => f.S i)

/-- The slice of the per-ROI record `LR` read by
`GeodeticLengthThicknessFeature`: `aux_area` (a `size_t`), the stored
`fvals[PERIMETER][0]` entry (a `double`, embedded as `ℚ`), and the validity
flag reported by `has_bad_data()`. -/
structure LR where
  aux_area : ℕ
  perimeter : ℚ
  bad_data : Bool

/-- `size_t roiPerimeter = r.fvals[PERIMETER][0];` — the `double`→`size_t`
conversion truncates toward zero, which for the non-negative perimeters the
pipeline stores is `Nat.floor`.  (For a negative stored value the C++
conversion is undefined; the model returns `0`.) -/
def roiPerimeterOf (r : LR) : ℕ := ⌊r.perimeter⌋₊

/-- `double SqRootTmp = roiPerimeter * roiPerimeter / 16 - (double)roiArea;`
— the product and the `/ 16` happen in `size_t` arithmetic (64-bit wraparound,
truncating division), and only then is the area subtracted as a `double`. -/
def sqRootTmp (r : LR) : ℚ :=
  ((roiPerimeterOf r * roiPerimeterOf r % 2 ^ 64 / 16 : ℕ) : ℚ) - (r.aux_area : ℚ)

/-- The clamp `if (SqRootTmp < 0) SqRootTmp = 0;`. -/
def sqRootTmpClamped (r : LR) : ℚ :=
  if sqRootTmp r < 0 then 0 else sqRootTmp r

/-- Working state of `GeodeticLengthThicknessFeature` after `calculate`: the
two member doubles later written by `save_value`. -/
structure GeoState where
  geodetic_length : ℝ
  thickness : ℝ

/-- `GeodeticLengthThicknessFeature::calculate(LR& r)`:
`geodetic_length = roiPerimeter / 4 + sqrt(SqRootTmp)` and
`thickness = roiPerimeter / 2 - geodetic_length`, where `roiPerimeter / 4`
and `roiPerimeter / 2` are truncating `size_t` divisions. -/
noncomputable def GeodeticLengthThicknessFeature.calculate (r : LR) : GeoState :=
  let geodetic_length : ℝ :=
    ((roiPerimeterOf r / 4 : ℕ) : ℝ) + Real.sqrt ((sqRootTmpClamped r : ℚ) : ℝ)
  { geodetic_length := geodetic_length
    thickness := ((roiPerimeterOf r / 2 : ℕ) : ℝ) - geodetic_length }

/-- The image-loader collaborator.  Modelled from the spec: it "must expose
pixel access by (x, y) returning an intensity"; `osized_calculate` ignores
its loader argument entirely. -/
structure ImageLoader where
  pixel : ℕ → ℕ → ℕ

/-- `GeodeticLengthThicknessFeature::osized_calculate(LR& r, ImageLoader&)`
simply delegates to `calculate(r)` ("This feature is not critical to ROI
size"). -/
noncomputable def GeodeticLengthThicknessFeature.osized_calculate
    (r : LR) (_il : ImageLoader) : GeoState :=
  GeodeticLengthThicknessFeature.calculate r

/-! ## Theorems -/

/-- By construction of `calculate`, thickness and geodetic length always add
up to the `size_t` quotient `roiPerimeter / 2` (the `sqrt` term cancels). -/
theorem thickness_add_geodetic (r : LR) :
    (GeodeticLengthThicknessFeature.calculate r).thickness
      + (GeodeticLengthThicknessFeature.calculate r).geodetic_length
      = ((roiPerimeterOf r / 2 : ℕ) : ℝ) := by
  simp [GeodeticLengthThicknessFeature.calculate]

/-- Claim C1, counterexample: for a record with area 1 and PERIMETER entry 41
(validity flag clear), `thickness + geodetic_length` is the `size_t` quotient
`41 / 2 = 20`, not the exact half `41 / 2 = 20.5` of the value read from the
record's PERIMETER entry. -/
theorem c1_counterexample :
    ¬ ((GeodeticLengthThicknessFeature.calculate ⟨1, 41, false⟩).thickness
       + (GeodeticLengthThicknessFeature.calculate ⟨1, 41, false⟩).geodetic_length
       = (((⟨1, 41, false⟩ : LR).perimeter : ℚ) : ℝ) / 2) := by
  rw [thickness_add_geodetic]
  have h : roiPerimeterOf ⟨1, 41, false⟩ = 41 := by norm_num [roiPerimeterOf]
  rw [h]
  norm_num

/-- Claim C1 (amended): for every record with the validity flag clear,
`thickness + geodetic_length` equals the truncated perimeter divided by 2 in
`size_t` integer division (hence equals `perimeter / 2` exactly whenever the
stored perimeter is an even natural number). -/
theorem c1_thickness_plus_geodetic (r : LR) (_h : r.bad_data = false) :
    (GeodeticLengthThicknessFeature.calculate r).thickness
      + (GeodeticLengthThicknessFeature.calculate r).geodetic_length
      = ((roiPerimeterOf r / 2 : ℕ) : ℝ) :=
  thickness_add_geodetic r

/-- Witness for the amended claim C1 at area 100, perimeter 40. -/
theorem c1_witness :
    ((⟨100, 40, false⟩ : LR).bad_data = false) ∧
    (GeodeticLengthThicknessFeature.calculate ⟨100, 40, false⟩).thickness
      + (GeodeticLengthThicknessFeature.calculate ⟨100, 40, false⟩).geodetic_length
      = ((roiPerimeterOf ⟨100, 40, false⟩ / 2 : ℕ) : ℝ) :=
  ⟨rfl, c1_thickness_plus_geodetic ⟨100, 40, false⟩ rfl⟩

/-- Claim C2, counterexample: at area 1, perimeter 41 the code produces
`geodetic_length = 41 div 4 + sqrt(41² div 16 - 1) = 10 + sqrt 104`
(`size_t` divisions), which differs from the claimed real-arithmetic value
`41 / 4 + sqrt(41² / 16 - 1)`. -/
theorem c2_counterexample :
    (GeodeticLengthThicknessFeature.calculate ⟨1, 41, false⟩).geodetic_length
      ≠ (41 : ℝ) / 4 + Real.sqrt ((41 : ℝ) ^ 2 / 16 - 1) := by
  have h1 : roiPerimeterOf ⟨1, 41, false⟩ = 41 := by norm_num [roiPerimeterOf]
  have h2 : sqRootTmpClamped ⟨1, 41, false⟩ = 104 := by
    norm_num [sqRootTmpClamped, sqRootTmp, roiPerimeterOf]
  have hg : (GeodeticLengthThicknessFeature.calculate ⟨1, 41, false⟩).geodetic_length
      = 10 + Real.sqrt 104 := by
    simp only [GeodeticLengthThicknessFeature.calculate, h1, h2]
    norm_num
  rw [hg]
  have hmono : Real.sqrt 104 ≤ Real.sqrt ((41 : ℝ) ^ 2 / 16 - 1) :=
    Real.sqrt_le_sqrt (by norm_num)
  have hlt : (10 : ℝ) + Real.sqrt 104 < 41 / 4 + Real.sqrt ((41 : ℝ) ^ 2 / 16 - 1) := by
    linarith
  exact ne_of_lt hlt

/-- Claim C2 (amended): for every record, with `L = ⌊perimeter⌋` the `size_t`
truncation of the stored perimeter, the code computes `t = L·L div 16 - A`
(`size_t` product and division), clamps `t` to 0 when negative — so the
square-root term is `sqrt 0 = 0`, never an invalid value — and produces
`geodetic_length = L div 4 + sqrt t` and
`thickness = L div 2 - geodetic_length`. -/
theorem c2_truncated_formula (r : LR) :
    (GeodeticLengthThicknessFeature.calculate r).geodetic_length
      = ((roiPerimeterOf r / 4 : ℕ) : ℝ) + Real.sqrt ((sqRootTmpClamped r : ℚ) : ℝ)
  ∧ (GeodeticLengthThicknessFeature.calculate r).thickness
      = ((roiPerimeterOf r / 2 : ℕ) : ℝ)
        - (GeodeticLengthThicknessFeature.calculate r).geodetic_length
  ∧ sqRootTmpClamped r = max 0 (sqRootTmp r)
  ∧ (sqRootTmp r < 0 → Real.sqrt ((sqRootTmpClamped r : ℚ) : ℝ) = 0) := by
  refine ⟨rfl, rfl, ?_, ?_⟩
  · rw [sqRootTmpClamped]
    rcases lt_or_le (sqRootTmp r) 0 with h | h
    · rw [if_pos h, max_eq_left h.le]
    · rw [if_neg (not_lt.2 h), max_eq_right h]
  · intro h
    rw [sqRootTmpClamped, if_pos h]
    simp [Real.sqrt_zero]

/-- Witness for claim C2 at area 100, perimeter 4, where the radicand
`4·4 div 16 - 100 = -99` is negative and the clamp fires. -/
theorem c2_witness :
    sqRootTmp ⟨100, 4, false⟩ < 0 ∧
    Real.sqrt ((sqRootTmpClamped ⟨100, 4, false⟩ : ℚ) : ℝ) = 0 := by
  have h : sqRootTmp ⟨100, 4, false⟩ < 0 := by
    norm_num [sqRootTmp, roiPerimeterOf]
  exact ⟨h, (c2_truncated_formula ⟨100, 4, false⟩).2.2.2 h⟩

/-- Claim C5: on a record with area 100 and perimeter 40, `calculate` yields
`geodetic_length = 10` and `thickness = 10` exactly; on a record with area 50
and perimeter 60 it yields `geodetic_length ≈ 28.2288` and
`thickness ≈ 1.7712` within tolerance `1e-3`. -/
theorem c5_two_examples :
    (GeodeticLengthThicknessFeature.calculate ⟨100, 40, false⟩).geodetic_length = 10
  ∧ (GeodeticLengthThicknessFeature.calculate ⟨100, 40, false⟩).thickness = 10
  ∧ |(GeodeticLengthThicknessFeature.calculate ⟨50, 60, false⟩).geodetic_length
      - 28.2288| < 1 / 1000
  ∧ |(GeodeticLengthThicknessFeature.calculate ⟨50, 60, false⟩).thickness
      - 1.7712| < 1 / 1000 := by
  have e1 : roiPerimeterOf ⟨100, 40, false⟩ = 40 := by norm_num [roiPerimeterOf]
  have e2 : sqRootTmpClamped ⟨100, 40, false⟩ = 0 := by
    norm_num [sqRootTmpClamped, sqRootTmp, roiPerimeterOf]
  have e3 : roiPerimeterOf ⟨50, 60, false⟩ = 60 := by norm_num [roiPerimeterOf]
  have e4 : sqRootTmpClamped ⟨50, 60, false⟩ = 175 := by
    norm_num [sqRootTmpClamped, sqRootTmp, roiPerimeterOf]
  have sL : (13.2278 : ℝ) < Real.sqrt 175 :=
    (Real.lt_sqrt (by norm_num)).2 (by norm_num)
  have sU : Real.sqrt 175 < 13.2298 :=
    (Real.sqrt_lt' (by norm_num)).2 (by norm_num)
  refine ⟨?_, ?_, ?_, ?_⟩
  · simp only [GeodeticLengthThicknessFeature.calculate, e1, e2]
    norm_num
  · simp only [GeodeticLengthThicknessFeature.calculate, e1, e2]
    norm_num
  · simp only [GeodeticLengthThicknessFeature.calculate, e3, e4]
    rw [abs_lt]
    push_cast
    constructor <;> [linarith; linarith]
  · simp only [GeodeticLengthThicknessFeature.calculate, e3, e4]
    rw [abs_lt]
    push_cast
    constructor <;> [linarith; linarith]

/-- Claim C9: for every record and every image-loader argument,
`osized_calculate` produces exactly the working state of `calculate` on the
same record — the source delegates unconditionally. -/
theorem c9_osized_equals_calculate (r : LR) (il : ImageLoader) :
    GeodeticLengthThicknessFeature.osized_calculate r il
      = GeodeticLengthThicknessFeature.calculate r := rfl

/-- A 1×1 single-pixel matrix used at degenerate-case witnesses. -/
def im1x1 : ImageMatrix := ⟨1, 1, fun _ _ => 7⟩

/-- Claim C3: if `initialize` is called with `minI == maxI` the bad-data flag
is set and each of the five derived scalars returns exactly `0.0`. -/
theorem c3_degenerate_all_zero (minI maxI : ℕ) (im : ImageMatrix)
    (h : minI = maxI) :
    (NGTDM_features.setup minI maxI im).bad_roi_data = true
  ∧ (NGTDM_features.setup minI maxI im).calc_Coarseness = 0
  ∧ (NGTDM_features.setup minI maxI im).calc_Contrast = 0
  ∧ (NGTDM_features.setup minI maxI im).calc_Busyness = 0
  ∧ (NGTDM_features.setup minI maxI im).calc_Complexity = 0
  ∧ (NGTDM_features.setup minI maxI im).calc_Strength = 0 := by
  subst h
  simp [NGTDM_features.setup, NGTDM_features.calc_Coarseness,
    NGTDM_features.calc_Contrast, NGTDM_features.calc_Busyness,
    NGTDM_features.calc_Complexity, NGTDM_features.calc_Strength, BAD_ROI_FVAL]

/-- Witness for claim C3 at `minI = maxI = 7` on a concrete 1×1 matrix. -/
theorem c3_witness :
    (NGTDM_features.setup 7 7 im1x1).bad_roi_data = true
  ∧ (NGTDM_features.setup 7 7 im1x1).calc_Coarseness = 0
  ∧ (NGTDM_features.setup 7 7 im1x1).calc_Contrast = 0
  ∧ (NGTDM_features.setup 7 7 im1x1).calc_Busyness = 0
  ∧ (NGTDM_features.setup 7 7 im1x1).calc_Complexity = 0
  ∧ (NGTDM_features.setup 7 7 im1x1).calc_Strength = 0 :=
  c3_degenerate_all_zero 7 7 im1x1 rfl

/-- The busyness quotient as the spec writes it:
`Σᵢ P[i]S[i] / Σᵢ Σⱼ |P[i]·i − P[j]·j|`. -/
def busynessFormula (f : NGTDM_features) : ℚ :=
  ((Finset.range f.Ng).sum fun i => f.P i * f.S i)
    / ((Finset.range f.Ng).sum fun i => (Finset.range f.Ng).sum fun j =>
        |f.P i * (i : ℚ) - f.P j * (j : ℚ)|)

/-- Claim C6: `calc_Busyness` returns exactly `0.0` whenever `Ngp == 1`,
regardless of the contents of `S` and `P`; otherwise, for non-bad data, it
returns `Σᵢ P[i]S[i] / Σᵢ Σⱼ |P[i]·i − P[j]·j|`. -/
theorem c6_busyness (f : NGTDM_features) :
    (f.Ngp = 1 → f.calc_Busyness = 0)
  ∧ (f.bad_roi_data = false → f.Ngp ≠ 1 → f.calc_Busyness = busynessFormula f) := by
  constructor
  · intro h
    by_cases hb : f.bad_roi_data <;>
      simp [NGTDM_features.calc_Busyness, h, hb, BAD_ROI_FVAL]
  · intro hb h
    simp [NGTDM_features.calc_Busyness, hb, h, busynessFormula]

/-- A concrete single-level state (Ngp = 1) with nonsense `S`/`P` contents. -/
def stOneLevel : NGTDM_features :=
  { bad_roi_data := false, Ng := 1, Ngp := 1, Nvp := 1
    P := fun _ => 1 / 3, S := fun _ => 42, N := fun _ => 1 }

/-- A concrete two-level state for the non-trivial busyness branch. -/
def stTwoLevel : NGTDM_features :=
  { bad_roi_data := false, Ng := 2, Ngp := 2, Nvp := 2
    P := fun _ => 1 / 2, S := fun i => (i : ℚ) + 1, N := fun _ => 1 }

/-- Witness for claim C6: the trivial branch at a concrete `Ngp = 1` state
and the quotient branch at a concrete `Ngp = 2` state. -/
theorem c6_witness :
    stOneLevel.calc_Busyness = 0
  ∧ (stTwoLevel.bad_roi_data = false ∧ stTwoLevel.Ngp ≠ 1
      ∧ stTwoLevel.calc_Busyness = busynessFormula stTwoLevel) :=
  ⟨(c6_busyness stOneLevel).1 rfl,
   rfl, by decide, (c6_busyness stTwoLevel).2 rfl (by decide)⟩

/-- The contrast product as the spec writes it:
`[ Σᵢ Σⱼ P[i]P[j](i−j)² / (Ngp·(Ngp−1)) ] × [ Σᵢ S[i] / Ngp ]`, with the
first normalizer replaced by `Ngp` itself when `Ngp ≤ 1`. -/
def contrastFormula (f : NGTDM_features) : ℚ :=
  (((Finset.range f.Ng).sum fun i => (Finset.range f.Ng).sum fun j =>
      f.P i * f.P j * ((i : ℚ) - (j : ℚ)) ^ 2)
    / ((if f.Ngp ≤ 1 then f.Ngp else f.Ngp * (f.Ngp - 1) : ℕ) : ℚ))
  * (((Finset.range f.Ng).sum fun i => f.S i) / (f.Ngp : ℚ))

/-- Claim C7: for non-bad data, `calc_Contrast` returns
`[ Σᵢ Σⱼ P[i]P[j](i−j)² / (Ngp·(Ngp−1)) ] × [ Σᵢ S[i] / Ngp ]`, except that
when `Ngp ≤ 1` the first normalizer degrades to `Ngp` itself.  (The code's
1-based rank distance `(i+1)−(j+1)` equals the 0-based `(i−j)`.) -/
theorem c7_contrast (f : NGTDM_features) (hb : f.bad_roi_data = false) :
    f.calc_Contrast = contrastFormula f := by
  have hsum : ((Finset.range f.Ng).sum fun i => (Finset.range f.Ng).sum fun j =>
      f.P i * f.P j * (((i : ℚ) + 1) - ((j : ℚ) + 1)) * (((i : ℚ) + 1) - ((j : ℚ) + 1)))
      = (Finset.range f.Ng).sum fun i => (Finset.range f.Ng).sum fun j =>
        f.P i * f.P j * ((i : ℚ) - (j : ℚ)) ^ 2 :=
    Finset.sum_congr rfl fun i _ => Finset.sum_congr rfl fun j _ => by ring
  have hnorm : (if 1 < f.Ngp then f.Ngp * (f.Ngp - 1) else f.Ngp)
      = (if f.Ngp ≤ 1 then f.Ngp else f.Ngp * (f.Ngp - 1)) := by
    rcases le_or_lt f.Ngp 1 with h | h
    · rw [if_neg (not_lt.2 h), if_pos h]
    · rw [if_pos h, if_neg (not_le.2 h)]
  simp only [NGTDM_features.calc_Contrast, hb, Bool.false_eq_true, if_false,
    contrastFormula, hsum, hnorm, div_eq_mul_inv]

/-- Witness for claim C7 at a concrete non-bad two-level state. -/
theorem c7_witness :
    stTwoLevel.bad_roi_data = false
  ∧ stTwoLevel.calc_Contrast = contrastFormula stTwoLevel :=
  ⟨rfl, c7_contrast stTwoLevel rfl⟩

/-- A 1×2 matrix with pixels `[1, 2]`, used as a non-degenerate witness. -/
def im1x2 : ImageMatrix := ⟨1, 2, fun _ c => c + 1⟩

/-- Claim C8: after `initialize` on a non-degenerate matrix, `Ng` is the
number of distinct non-zero intensities observed and every in-range entry of
`P` is the same value `Ng / (height × width)`. -/
theorem c8_P_uniform (minI maxI : ℕ) (im : ImageMatrix) (h : minI ≠ maxI) :
    (NGTDM_features.setup minI maxI im).Ng = (uniqueIntensities im).length
  ∧ ∀ i, i < (NGTDM_features.setup minI maxI im).Ng →
      (NGTDM_features.setup minI maxI im).P i
        = ((NGTDM_features.setup minI maxI im).Ng : ℚ)
          / ((im.height : ℚ) * (im.width : ℚ)) := by
  constructor
  · simp [NGTDM_features.setup, if_neg h]
  · intro i hi
    simp only [NGTDM_features.setup, if_neg h] at hi ⊢
    simp [hi]

/-- Witness for claim C8 on the 1×2 matrix `[1, 2]` (`Ng = 2`, so
`P 0 = 2 / 2 = 1`). -/
theorem c8_witness :
    0 < (NGTDM_features.setup 1 2 im1x2).Ng
  ∧ (NGTDM_features.setup 1 2 im1x2).P 0
      = ((NGTDM_features.setup 1 2 im1x2).Ng : ℚ)
        / ((im1x2.height : ℚ) * (im1x2.width : ℚ)) :=
  ⟨by decide, (c8_P_uniform 1 2 im1x2 (by decide)).2 0 (by decide)⟩

/-- Claim C10: on a matrix with at least two cells, every in-bounds pixel has
at least one in-bounds 8-connected neighbor, so the divisor `nd` of
`neigsI /= nd` is at least 1 and the division-by-zero branch is unreachable;
on a 1×1 matrix the guard fails (`nd = 0` at the single pixel). -/
theorem c10_nd_positive (im : ImageMatrix) :
    (2 ≤ im.height * im.width →
      ∀ row col : ℕ, row < im.height → col < im.width → im.pix row col ≠ 0 →
        1 ≤ neighborCount im row col)
  ∧ (im.height = 1 → im.width = 1 → neighborCount im 0 0 = 0) := by
  constructor
  · intro h2 row col hr hc _
    have hHW : 2 ≤ im.height ∨ 2 ≤ im.width := by
      by_contra hcon
      push_neg at hcon
      obtain ⟨hh, hw⟩ := hcon
      have : im.height * im.width ≤ 1 * 1 :=
        Nat.mul_le_mul (Nat.lt_succ_iff.mp hh) (Nat.lt_succ_iff.mp hw)
      omega
    unfold neighborCount ImageMatrix.safe
    simp only [decide_eq_true_eq]
    rcases hHW with hH | hW <;> split_ifs <;> omega
  · intro h1 h2
    unfold neighborCount ImageMatrix.safe
    simp only [h1, h2]
    norm_num

/-- Witness for claim C10: the 1×2 matrix (`nd ≥ 1` at pixel `(0,0)`) and the
1×1 matrix (`nd = 0` at its only pixel). -/
theorem c10_witness :
    1 ≤ neighborCount im1x2 0 0 ∧ neighborCount im1x1 0 0 = 0 :=
  ⟨(c10_nd_positive im1x2).1 (by decide) 0 0 (by decide) (by decide) (by decide),
   (c10_nd_positive im1x1).2 rfl rfl⟩

/-- The eight 8-connected neighbor positions of `(row, col)`, in the source's
probe order (N, NE, E, SE, S, SW, W, NW). -/
def nbrPositions (row col : ℤ) : List (ℤ × ℤ) :=
  [(row - 1, col), (row - 1, col + 1), (row, col + 1), (row + 1, col + 1),
   (row + 1, col), (row + 1, col - 1), (row, col - 1), (row - 1, col - 1)]

/-- Spec-side: the in-bounds 8-connected neighbors of a pixel ("however many
in-bounds neighbors exist"). -/
def inboundsNeighbors (im : ImageMatrix) (row col : ℤ) : List (ℤ × ℤ) :=
  (nbrPositions row col).filter fun p => im.safe p.1 p.2

/-- Guarded sums over a position list restrict to the filtered sublist. -/
theorem sumIf_filter (im : ImageMatrix) (g : ℤ × ℤ → ℕ) :
    ∀ l : List (ℤ × ℤ),
      (l.map fun p => if im.safe p.1 p.2 then g p else 0).sum
        = ((l.filter fun p => im.safe p.1 p.2).map g).sum := by
  intro l
  induction l with
  | nil => simp
  | cons a l ih =>
    by_cases h : im.safe a.1 a.2 <;> simp [h, ih, List.filter_cons]

/-- Guarded counts over a position list equal the filtered sublist's length. -/
theorem countIf_filter (im : ImageMatrix) :
    ∀ l : List (ℤ × ℤ),
      (l.map fun p => if im.safe p.1 p.2 then 1 else 0).sum
        = (l.filter fun p => im.safe p.1 p.2).length := by
  intro l
  induction l with
  | nil => simp
  | cons a l ih =>
    by_cases h : im.safe a.1 a.2 <;> simp [h, ih, List.filter_cons, Nat.add_comm]

/-- The eight-branch accumulation of `neigsI` equals the sum of the
intensities of exactly the in-bounds 8-connected neighbors. -/
theorem neighborSum_eq_inbounds (im : ImageMatrix) (row col : ℤ) :
    neighborSum im row col
      = ((inboundsNeighbors im row col).map fun p => im.pixAt p.1 p.2).sum := by
  rw [inboundsNeighbors, ← sumIf_filter im (fun p => im.pixAt p.1 p.2)]
  simp [nbrPositions, neighborSum]
  ring

/-- The eight-branch counter `nd` equals the number of in-bounds 8-connected
neighbors. -/
theorem neighborCount_eq_inbounds (im : ImageMatrix) (row col : ℤ) :
    neighborCount im row col = (inboundsNeighbors im row col).length := by
  rw [inboundsNeighbors, ← countIf_filter im]
  simp [nbrPositions, neighborCount]
  ring

/-- Spec-side zone list, following the amended claim C4's words: for every
non-background pixel in scan order, the pair (pixel intensity, truncated
average), where the truncated average is the sum of the intensities of
exactly its in-bounds 8-connected neighbors divided — in unsigned integer
division — by the count of those in-bounds neighbors (never a fixed 8). -/
def specZones (im : ImageMatrix) : List (ℕ × ℚ) :=
  (List.range im.height).flatMap fun row =>
    (List.range im.width).filterMap fun col =>
      let pi := im.pix row col
      if pi = 0 then none
      else some (pi,
        (((((inboundsNeighbors im row col).map fun p => im.pixAt p.1 p.2).sum
            / (inboundsNeighbors im row col).length : ℕ)) : ℚ))

/-- Spec-side exact (rational) neighborhood average over the in-bounds
8-connected neighbors — what claim C4 asserts is recorded. -/
def exactNeighborhoodAvg (im : ImageMatrix) (row col : ℤ) : ℚ :=
  ((((inboundsNeighbors im row col).map fun p => im.pixAt p.1 p.2).sum : ℚ))
    / ((inboundsNeighbors im row col).length : ℚ)

/-- The 1×3 matrix with pixel row `[1, 2, 4]`: its middle pixel has in-bounds
neighbor intensities 1 and 4, so the exact neighborhood average is `5/2`. -/
def imC4 : ImageMatrix := ⟨1, 3, fun _ c => [1, 2, 4].getD c 0⟩

/-- Claim C4, counterexample: on the 1×3 row `[1, 2, 4]`, the zone recorded
for the middle pixel is `(2, 2)` — the integer-truncated quotient `5 / 2 = 2`
— not `(2, 5/2)` with the exact neighborhood average `5/2` the claim
asserts. -/
theorem c4_counterexample :
    (zones imC4)[1]? = some (2, 2)
  ∧ exactNeighborhoodAvg imC4 0 1 = 5 / 2
  ∧ (zones imC4)[1]? ≠ some (2, exactNeighborhoodAvg imC4 0 1) := by
  have h1 : (zones imC4)[1]? = some (2, 2) := by decide
  have h2 : ((inboundsNeighbors imC4 0 1).map fun p => imC4.pixAt p.1 p.2).sum = 5 := by
    decide
  have h3 : (inboundsNeighbors imC4 0 1).length = 2 := by decide
  have h4 : exactNeighborhoodAvg imC4 0 1 = 5 / 2 := by
    rw [exactNeighborhoodAvg, h2, h3]
    norm_num
  refine ⟨h1, h4, ?_⟩
  rw [h1, h4]
  intro hcon
  simp only [Option.some.injEq, Prod.mk.injEq] at hcon
  exact absurd hcon.2 (by norm_num)

/-- Claim C4 (amended): during `initialize`, for every non-background pixel
the recorded pair is (pixel intensity, truncated neighborhood average): the
sum of the intensities of exactly its in-bounds 8-connected neighbors —
out-of-bounds positions contribute nothing — divided in unsigned integer
division by the count of those in-bounds neighbors (never a fixed 8). -/
theorem c4_zones_truncated_average (im : ImageMatrix) :
    zones im = specZones im := by
  unfold zones specZones
  simp only [neighborSum_eq_inbounds, neighborCount_eq_inbounds]
